import Mathlib

set_option autoImplicit false
set_option maxRecDepth 8000

/-!
Verification development for the GitMirror Cloudflare worker
(`src/worker.js`): a shallow embedding of the worker's request handling —
URL normalization, the short-link registry over the `SHORT_KV` store, the
proxy/cache engine `proxyFetch`, the `/api/meta` probe, and the router —
together with theorems settling the specification claims C1–C10.

External collaborators are modelled as explicit parameters: the KV store and
the edge cache as lookup functions, the outbound HTTP client as an oracle
from the request we build to the result, the Web-Crypto SHA-1 digest and
`Math.random` as abstract functions.
-/

deriving instance DecidableEq for Except

namespace GitMirror

/-! ## String and character helpers (models of the JavaScript primitives) -/

/-- ASCII lowercasing, modelling case-insensitive HTTP header names and the
URL parser's scheme/host lowercasing. -/
def lowerAscii (s : String) : String := String.mk (s.data.map Char.toLower)

/-- Model of JavaScript `String.prototype.slice(n)` for `n ≥ 0` (JS slices
UTF-16 code units; the worker only slices ASCII paths, where the two agree). -/
def jsSlice (s : String) (n : Nat) : String := String.mk (s.data.drop n)

/-- Model of JavaScript `String.prototype.startsWith(p)`. -/
def jsStartsWith (s p : String) : Bool := p.data.isPrefixOf s.data

/-- Characters removed by `String.prototype.trim` (ASCII whitespace; JS also
trims rarer Unicode space separators, which the worker's inputs do not use). -/
def trimChars (l : List Char) : List Char :=
  ((l.dropWhile Char.isWhitespace).reverse.dropWhile Char.isWhitespace).reverse

/-- Model of JavaScript `String.prototype.trim()`. -/
def jsTrim (s : String) : String := String.mk (trimChars s.data)

/-- Substring test, modelling `RegExp.prototype.test` for a regex that is a
plain character sequence. -/
def containsSeq (pat : List Char) : List Char → Bool
  | [] => pat.isEmpty
  | c :: rest => pat.isPrefixOf (c :: rest) || containsSeq pat rest

/-- Model of JavaScript `String.prototype.split(sep)` for a one-character
separator, on character lists. -/
def splitOnChar (sep : Char) : List Char → List (List Char)
  | [] => [[]]
  | c :: rest =>
    if c = sep then [] :: splitOnChar sep rest
    else
      match splitOnChar sep rest with
      | [] => [[c]]
      | h :: t => (c :: h) :: t

/-! ## UTF-8 and percent encoding (models of `encodeURIComponent` /
`decodeURIComponent`) -/

/-- UTF-8 encoding of one code point. -/
def utf8Bytes (c : Char) : List UInt8 :=
  let n := c.toNat
  if n < 0x80 then [UInt8.ofNat n]
  else if n < 0x800 then
    [UInt8.ofNat (0xC0 + n / 64), UInt8.ofNat (0x80 + n % 64)]
  else if n < 0x10000 then
    [UInt8.ofNat (0xE0 + n / 4096), UInt8.ofNat (0x80 + n / 64 % 64),
     UInt8.ofNat (0x80 + n % 64)]
  else
    [UInt8.ofNat (0xF0 + n / 262144), UInt8.ofNat (0x80 + n / 4096 % 64),
     UInt8.ofNat (0x80 + n / 64 % 64), UInt8.ofNat (0x80 + n % 64)]

def hexDigitsUpper : List Char :=
  ['0', '1', '2', '3', '4', '5', '6', '7', '8', '9', 'A', 'B', 'C', 'D', 'E', 'F']

def hexOfByte (b : UInt8) : String :=
  String.mk [hexDigitsUpper.getD (b.toNat / 16) '0', hexDigitsUpper.getD (b.toNat % 16) '0']

/-- The characters `encodeURIComponent` leaves unescaped besides ASCII
alphanumerics: `- _ . ! ~ * ' ( )` (`Char.ofNat 39` is the apostrophe). -/
def uriUnreservedExtra : List Char := ['-', '_', '.', '!', '~', '*', Char.ofNat 39, '(', ')']

/-- Model of JavaScript `encodeURIComponent`: UTF-8 percent-encoding of every
byte outside the unreserved set, upper-case hex. -/
def encodeURIComponent (s : String) : String :=
  (s.data.foldr (fun c acc => utf8Bytes c ++ acc) []).foldl
    (fun acc b =>
      let c := Char.ofNat b.toNat
      acc ++ (if c.isAlphanum || uriUnreservedExtra.contains c then String.mk [c]
              else "%" ++ hexOfByte b))
    ""

def hexVal (c : Char) : Option Nat :=
  if '0' ≤ c ∧ c ≤ '9' then some (c.toNat - 48)
  else if 'a' ≤ c ∧ c ≤ 'f' then some (c.toNat - 87)
  else if 'A' ≤ c ∧ c ≤ 'F' then some (c.toNat - 55)
  else none

/-- Percent-unescaping into a byte sequence; `none` when a `%` is not followed
by two hex digits (a `URIError` case of `decodeURIComponent`). -/
def pctBytes : List Char → Option (List UInt8)
  | [] => some []
  | '%' :: rest =>
    match rest with
    | a :: b :: rest' =>
      match hexVal a, hexVal b, pctBytes rest' with
      | some ha, some hb, some t => some (UInt8.ofNat (16 * ha + hb) :: t)
      | _, _, _ => none
    | _ => none
  | c :: rest =>
    match pctBytes rest with
    | some t => some (utf8Bytes c ++ t)
    | none => none

def isContByte (b : UInt8) : Bool := 0x80 ≤ b.toNat && b.toNat < 0xC0

def contVal (b : UInt8) : Nat := b.toNat - 0x80

/-- Strict UTF-8 decoding; `none` on malformed sequences, overlong forms and
surrogate code points (the `URIError` cases of `decodeURIComponent`). -/
def utf8Decode : List UInt8 → Option (List Char)
  | [] => some []
  | b :: rest =>
    let n := b.toNat
    if n < 0x80 then
      match utf8Decode rest with
      | some cs => some (Char.ofNat n :: cs)
      | none => none
    else if n < 0xC2 then none
    else if n < 0xE0 then
      match rest with
      | b2 :: r =>
        if isContByte b2 then
          match utf8Decode r with
          | some cs => some (Char.ofNat ((n - 0xC0) * 64 + contVal b2) :: cs)
          | none => none
        else none
      | _ => none
    else if n < 0xF0 then
      match rest with
      | b2 :: b3 :: r =>
        let cp := (n - 0xE0) * 4096 + contVal b2 * 64 + contVal b3
        if isContByte b2 && isContByte b3 && decide (0x800 ≤ cp)
            && !(decide (0xD800 ≤ cp) && decide (cp < 0xE000)) then
          match utf8Decode r with
          | some cs => some (Char.ofNat cp :: cs)
          | none => none
        else none
      | _ => none
    else if n < 0xF5 then
      match rest with
      | b2 :: b3 :: b4 :: r =>
        let cp := (n - 0xF0) * 262144 + contVal b2 * 4096 + contVal b3 * 64 + contVal b4
        if isContByte b2 && isContByte b3 && isContByte b4
            && decide (0x10000 ≤ cp) && decide (cp ≤ 0x10FFFF) then
          match utf8Decode r with
          | some cs => some (Char.ofNat cp :: cs)
          | none => none
        else none
      | _ => none
    else none

/-- Model of JavaScript `decodeURIComponent`; `none` models a thrown
`URIError`. -/
def decodeURIComponent (s : String) : Option String :=
  match pctBytes s.data with
  | none => none
  | some bs =>
    match utf8Decode bs with
    | none => none
    | some cs => some (String.mk cs)

/-! ## WHATWG URL parser model

The worker calls the platform's `new URL(s)` constructor. We model it for
absolute `http`/`https` URLs — the only inputs `normalize` ever hands it,
since it prepends `https://` to anything that does not already start with
`http://` or `https://`. Simplifications relative to the full WHATWG
algorithm: no percent-decoding or IDNA processing of the host, no dot-segment
resolution or percent-encoding of the path, no IPv6 host brackets, characters
in place of UTF-16 code units, and no stripping of embedded tab/newline
characters. -/

structure URLParts where
  scheme : String
  hostname : String
  port : Option Nat
  pathname : String
  search : String
  fragment : String
deriving DecidableEq, Repr

/-- Split the (case-insensitive) `http://` / `https://` scheme off. -/
def schemeSplit (l : List Char) : Option (String × List Char) :=
  if ("https://".data).isPrefixOf (l.map Char.toLower) then some ("https", l.drop 8)
  else if ("http://".data).isPrefixOf (l.map Char.toLower) then some ("http", l.drop 7)
  else none

/-- Characters ending the authority component. -/
def isAuthEnd (c : Char) : Bool := c = '/' || c = '\\' || c = '?' || c = '#'

/-- WHATWG forbidden host code points (plus `%`, which the real parser would
percent-decode first; we fail closed instead). -/
def forbiddenHostChar (c : Char) : Bool :=
  c.toNat < 0x21 || c.toNat = 0x7F ||
    ['#', '/', ':', '<', '>', '?', '@', '[', '\\', ']', '^', '|', '%'].contains c

def bslashToSlash (c : Char) : Char := if c = '\\' then '/' else c

/-- Split what follows the authority into pathname, search and fragment
(`search` keeps its leading `?`, `fragment` its leading `#`; an absent path
serializes as `/`, and backslashes count as slashes for special schemes). -/
def pathSplit (l : List Char) : String × String × String :=
  let pathChars := (l.takeWhile (fun c => !(c = '?' || c = '#'))).map bslashToSlash
  let rest := l.dropWhile (fun c => !(c = '?' || c = '#'))
  let searchChars := rest.takeWhile (fun c => !(c = '#'))
  let fragChars := rest.dropWhile (fun c => !(c = '#'))
  (if pathChars.isEmpty then "/" else String.mk pathChars,
   String.mk searchChars, String.mk fragChars)

/-- Port parsing: empty port is dropped, non-digits fail, out-of-range fails,
the scheme's default port is normalized away. `none` = parse failure,
`some none` = no explicit port in the serialization. -/
def portParse (scheme : String) (l : List Char) : Option (Option Nat) :=
  if l.isEmpty then some none
  else if l.all Char.isDigit then
    let n := l.foldl (fun acc c => acc * 10 + (c.toNat - 48)) 0
    if 65536 ≤ n then none
    else if (scheme = "https" ∧ n = 443) ∨ (scheme = "http" ∧ n = 80) then some none
    else some (some n)
  else none

/-- Model of `new URL(s)` for absolute http(s) URLs; `none` models the thrown
`TypeError`. After the scheme, extra slashes/backslashes are skipped (WHATWG
"special authority ignore slashes"), the authority runs to the first
`/ \ ? #`, userinfo before the last `@` is dropped, and host and port are
validated. -/
def parseHttpURL (s : String) : Option URLParts :=
  match schemeSplit s.data with
  | none => none
  | some (scheme, rest0) =>
    let rest := rest0.dropWhile (fun c => c = '/' || c = '\\')
    let auth := rest.takeWhile (fun c => !isAuthEnd c)
    let afterAuth := rest.dropWhile (fun c => !isAuthEnd c)
    let hostport := (auth.reverse.takeWhile (fun c => c ≠ '@')).reverse
    let host := hostport.takeWhile (fun c => c ≠ ':')
    let portStr := (hostport.dropWhile (fun c => c ≠ ':')).drop 1
    if host.isEmpty then none
    else if host.any forbiddenHostChar then none
    else
      match portParse scheme portStr with
      | none => none
      | some port =>
        let ps := pathSplit afterAuth
        some ⟨scheme, String.mk (host.map Char.toLower), port, ps.1, ps.2.1, ps.2.2⟩

/-- `URL.prototype.href` serialization for the parts we model. -/
def URLParts.href (u : URLParts) : String :=
  u.scheme ++ "://" ++ u.hostname ++
    (match u.port with
     | none => ""
     | some n => ":" ++ Nat.repr n) ++
    u.pathname ++ u.search ++ u.fragment

/-! ## `normalize` (worker.js:184-191) -/

/-- The five-host allow-list (worker.js:188). -/
def allowedHosts : List String :=
  ["github.com", "raw.githubusercontent.com", "objects.githubusercontent.com",
   "releases.githubusercontent.com", "gist.githubusercontent.com"]

/-- The test `/^https?:\/\//i.test(urlStr)` (worker.js:186): a case-insensitive
`http://` or `https://` at the start of the string. -/
def httpSchemeTest (s : String) : Bool :=
  jsStartsWith (lowerAscii s) "http://" || jsStartsWith (lowerAscii s) "https://"

/-- Modelled from the spec: "if it lacks a `scheme://` prefix" — a generic URI
scheme in the RFC 3986 sense (a letter followed by letters, digits, `+`, `-`,
`.`) followed by `://`. The code's actual test is `httpSchemeTest`; claim C4
compares the two. -/
def schemeSlashSlashTest (s : String) : Bool :=
  let isSchemeChar := fun (c : Char) => c.isAlphanum || c = '+' || c = '-' || c = '.'
  let sch := s.data.takeWhile isSchemeChar
  let rest := s.data.dropWhile isSchemeChar
  (match sch with
   | [] => false
   | c :: _ => c.isAlpha) && ("://".data.isPrefixOf rest)

/-- `normalize(raw)` (worker.js:184-191). `.error "Invalid URL"` models the
`TypeError` thrown by `new URL`, `.error "Host not allowed"` the explicit
`throw new Error("Host not allowed")`. -/
def normalize (raw : String) : Except String String :=
  let urlStr := jsTrim raw
  let urlStr := if httpSchemeTest urlStr then urlStr else "https://" ++ urlStr
  match parseHttpURL urlStr with
  | none => .error "Invalid URL"
  | some u =>
    if allowedHosts.contains u.hostname then .ok u.href
    else .error "Host not allowed"

/-- The string `normalize` hands to `new URL` (worker.js:185-186): the trimmed
input, with `https://` prepended when the `/^https?:\/\//i` test fails. -/
def prepped (raw : String) : String :=
  let t := jsTrim raw
  if httpSchemeTest t then t else "https://" ++ t

/-! ## The `SHORT_KV` store and the short-link registry -/

/-- The `SHORT_KV` key-value namespace, as its `get` lookup function. -/
def KV : Type := String → Option String

/-- `SHORT_KV.put(k, v)` applied to the store state. -/
def kvPut (kv : KV) (k v : String) : KV :=
  fun k' => if k' = k then some v else kv k'

/-- The 58-character code alphabet of `makeShortCode` (worker.js:232). -/
def codeChars : String := "abcdefghijkmnopqrstuvwxyzABCDEFGHJKLMNPQRSTUVWXYZ123456789"

/-- `makeShortCode(len)` (worker.js:231-236). `rand i` abstracts the i-th
`Math.floor(Math.random() * chars.length)`; JS guarantees that value is below
the alphabet length, which the `%` enforces in the model. -/
def makeShortCode (rand : Nat → Nat) (len : Nat) : String :=
  String.mk ((List.range len).map
    (fun i => codeChars.data.getD (rand i % codeChars.data.length) 'a'))

/-- The do/while candidate loop of the `/api/shorten` branch (worker.js:50-54).
`rand i` is the RNG of the i-th draw and `i` counts the draws already made
(`retries` in the source is `i + 1` when the loop condition runs): keep
drawing while `c:{code}` is occupied and fewer than 5 draws were made.
`fuel` is a structural-recursion bound kept at `5 - i`, so the `i + 1 < 5`
loop condition always stops the recursion before the fuel does. -/
def genCodeFrom (rand : Nat → Nat → Nat) (kv : KV) : Nat → Nat → String
  | i, 0 => makeShortCode (rand i) 6
  | i, fuel + 1 =>
    let code := makeShortCode (rand i) 6
    if (kv ("c:" ++ code)).isSome ∧ i + 1 < 5 then genCodeFrom rand kv (i + 1) fuel
    else code

/-- The candidate loop entered with `retries = 0` (worker.js:50). -/
def genCode (rand : Nat → Nat → Nat) (kv : KV) : String :=
  genCodeFrom rand kv 0 5

/-- The JSON payload of a successful `/api/shorten` response (worker.js:58-62). -/
structure ShortenOut where
  short : String
  long : String
  code : String
deriving DecidableEq, Repr

/-- The `POST /api/shorten` branch (worker.js:39-68). `sha1f` abstracts the
Web-Crypto SHA-1 hex digest (worker.js:237-241), `rand` the RNG; the result
pairs the JSON payload with the updated store. `.error` is the caught
exception rendered as a 400 JSON body: the `!original` falsy guard
(worker.js:43, modelled for the empty string) or a `normalize` throw. -/
def createShort (sha1f : String → String) (rand : Nat → Nat → Nat)
    (raw : String) (kv : KV) : Except String (ShortenOut × KV) :=
  if raw = "" then .error "URL is required"
  else
    match normalize raw with
    | .error e => .error e
    | .ok target =>
      let hash := sha1f target
      match kv ("u:" ++ hash) with
      | some code => .ok (⟨"d/" ++ code, target, code⟩, kv)
      | none =>
        let code := genCode rand kv
        let kv1 := kvPut kv ("c:" ++ code) target
        let kv2 := kvPut kv1 ("u:" ++ hash) code
        .ok (⟨"d/" ++ code, target, code⟩, kv2)

/-- The `/d/<code>` lookup (worker.js:29): one KV read, no writes. -/
def resolveCode (kv : KV) (code : String) : Option String := kv ("c:" ++ code)

/-! ## Header maps -/

/-- A JavaScript `Headers` object, modelled as a total lookup function keyed
by lower-cased header names (`Headers` operations are case-insensitive and a
`Headers` object holds each name once). -/
def HMap : Type := String → Option String

def emptyH : HMap := fun _ => none

/-- `headers.set(k, v)`. -/
def hset (h : HMap) (k v : String) : HMap :=
  fun k' => if k' = lowerAscii k then some v else h k'

/-- `headers.delete(k)`. -/
def hdel (h : HMap) (k : String) : HMap :=
  fun k' => if k' = lowerAscii k then none else h k'

/-- `headers.get(k)` (`null` becomes `none`). -/
def hget (h : HMap) (k : String) : Option String := h (lowerAscii k)

/-! ## `getFilename` and `detectType` (worker.js:193-219) -/

def dropWS (l : List Char) : List Char := l.dropWhile Char.isWhitespace

def isQuoteChar (c : Char) : Bool := c = '"' || c = Char.ofNat 39

/-- The scan of `/filename\*\s*=\s*([^;]+)/i` (worker.js:199): at each
position try to match `filename*`, optional whitespace, `=`, optional
whitespace, then a non-empty run up to the next `;`. (The regex can make the
capture keep leading spaces by backtracking when the value is all-space; the
caller trims the capture, so the difference only matters for an all-space
value, which we let fail here.) -/
def starCapture : List Char → Option (List Char)
  | [] => none
  | c :: rest =>
    (if ("filename*".data).isPrefixOf ((c :: rest).map Char.toLower) then
      match dropWS ((c :: rest).drop 9) with
      | '=' :: a2 =>
        let cap := (dropWS a2).takeWhile (fun x => x ≠ ';')
        if cap.isEmpty then starCapture rest else some cap
      | _ => starCapture rest
    else starCapture rest)

/-- The scan of `/filename\s*=\s*("?)([^";]+)\1/i` (worker.js:204): optional
quote, a non-empty run excluding `"` and `;`, and a matching closing quote
when one was opened. -/
def plainCapture : List Char → Option (List Char)
  | [] => none
  | c :: rest =>
    (if ("filename".data).isPrefixOf ((c :: rest).map Char.toLower) then
      match dropWS ((c :: rest).drop 8) with
      | '=' :: a2 =>
        match dropWS a2 with
        | '"' :: a4 =>
          let cap := a4.takeWhile (fun x => !(x = '"' || x = ';'))
          if cap.isEmpty then plainCapture rest
          else
            match a4.drop cap.length with
            | '"' :: _ => some cap
            | _ => plainCapture rest
        | a3 =>
          let cap := a3.takeWhile (fun x => !(x = '"' || x = ';'))
          if cap.isEmpty then plainCapture rest else some cap
      | _ => plainCapture rest
    else plainCapture rest)

/-- `.replace(/(^['"]|['"]$)/g, "")` (worker.js:201): strip one leading and
one trailing quote character. -/
def stripOuterQuotes (l : List Char) : List Char :=
  let l1 := match l with
    | c :: rest => if isQuoteChar c then rest else c :: rest
    | [] => []
  match l1.reverse with
  | c :: rest => if isQuoteChar c then rest.reverse else l1
  | [] => []

/-- `.split("''")` (worker.js:201): split on two consecutive apostrophes. -/
def splitOnQQ : List Char → List (List Char)
  | [] => [[]]
  | [c] => [[c]]
  | c :: c2 :: rest =>
    if c = Char.ofNat 39 ∧ c2 = Char.ofNat 39 then
      [] :: splitOnQQ rest
    else
      match splitOnQQ (c2 :: rest) with
      | [] => [[c]]
      | h :: t => (c :: h) :: t

/-- `getFilename(url, res)` (worker.js:193-209). `none` models a thrown
exception: `new URL(url)` failing (never hit by the worker, which always
passes a normalized url) or `decodeURIComponent` raising `URIError`. -/
def getFilename (url : String) (res : Option HMap) : Option String :=
  match parseHttpURL url with
  | none => none
  | some u =>
    let name := String.mk ((splitOnChar '/' u.pathname.data).getLastD [])
    let viaCD : Option (Option String) :=
      match res with
      | none => none
      | some hs =>
        match hget hs "content-disposition" with
        | none => none
        | some cd =>
          match starCapture cd.data with
          | some cap =>
            let v := splitOnQQ (stripOuterQuotes (trimChars cap))
            some (if v.length = 2 then decodeURIComponent (String.mk (v.getD 1 []))
                  else decodeURIComponent (String.mk (v.getD 0 [])))
          | none =>
            match plainCapture cd.data with
            | some cap => some (some (String.mk cap))
            | none => none
    match viaCD with
    | some r => r
    | none => some (if name = "" then "downloaded-file" else name)

/-- `detectType(url)` (worker.js:211-219). -/
def detectType (url : String) : String :=
  if containsSeq "/releases/".data url.data then "Release"
  else if containsSeq "/archive/".data url.data then "Source Code"
  else if containsSeq "raw.github".data url.data then "Raw File"
  else
    let ext := lowerAscii (String.mk ((splitOnChar '.' url.data).getLastD []))
    if ["zip", "rar", "7z", "tar", "gz"].contains ext then "Archive"
    else if ["exe", "msi", "apk", "dmg", "iso"].contains ext then "Binary"
    else "File"

/-! ## `proxyFetch` (worker.js:123-182) -/

def CACHE_TTL : Nat := 31536000

/-- The `Object.keys(CORS_HEADERS).forEach(k => h.set(k, ...))` loop
(worker.js:2-6, 136, 159), in insertion order. -/
def corsApply (h : HMap) : HMap :=
  hset (hset (hset h "Access-Control-Allow-Origin" "*")
      "Access-Control-Allow-Methods" "GET, HEAD, POST, OPTIONS")
    "Access-Control-Allow-Headers" "Content-Type, Range"

/-- The forward keep-list (worker.js:144). -/
def headersToKeep : List String := ["range", "user-agent", "accept", "accept-encoding"]

/-- The upstream request headers built in `proxyFetch` (worker.js:143-148):
copy the keep-listed entries of the client's `Headers` (which presents each
lower-cased name once), then unconditionally overwrite `User-Agent`. -/
def buildUpstreamHeaders (reqHeaders : HMap) : HMap :=
  hset (fun k => if headersToKeep.contains k then reqHeaders k else none)
    "User-Agent" "Mozilla/5.0 (GitMirror)"

/-- Response bodies distinguishable in the model: a streamed pass-through of
a cached/upstream body, or a literal string. -/
inductive PBody
  | stream
  | text (s : String)
deriving DecidableEq, Repr

/-- The observable outcome of `proxyFetch`: the client response plus the
cache write scheduled through `ctx.waitUntil` (`some key` iff a
`cache.put(key, ...)` was scheduled; the write is fire-and-forget and the
response fields never depend on it). -/
structure ProxyOutcome where
  status : Nat
  headers : HMap
  body : PBody
  cachePut : Option String

/-- `proxyFetch(target, request, ctx)` (worker.js:123-182). `cache` is
`caches.default.match` keyed by the GET cache key (the target URL);
`upstream h` is `fetch(target, {method, headers: h, redirect: "follow"})`,
with `.error` a thrown network failure. A string-bodied `Response` carries
the implicit `text/plain` content type. The `getFilename`-throws case (a
malformed `filename*` in the upstream `Content-Disposition`) lands in the
same `catch` as a network failure. -/
def proxyFetch (target method : String) (reqHeaders : HMap)
    (cache : String → Option (Nat × HMap))
    (upstream : HMap → Except String (Nat × HMap)) : ProxyOutcome :=
  let isRange := (hget reqHeaders "range").isSome
  match (if isRange = false ∧ method = "GET" then cache target else none) with
  | some (cst, chs) =>
    { status := cst,
      headers := corsApply (hset (hset chs "X-Cache-Status" "HIT") "X-Powered-By" "GitMirror-Pro"),
      body := .stream,
      cachePut := none }
  | none =>
    match upstream (buildUpstreamHeaders reqHeaders) with
    | .error msg =>
      { status := 502,
        headers := hset emptyH "Content-Type" "text/plain;charset=UTF-8",
        body := .text ("Upstream Error: " ++ msg),
        cachePut := none }
    | .ok (ust, uhs) =>
      let rh := corsApply (hdel (hdel uhs "link") "strict-transport-security")
      let rh := hset rh "X-Cache-Status" (if isRange then "BYPASS" else "MISS")
      let rh := hset rh "X-Powered-By" "GitMirror-Pro"
      match getFilename target (some uhs) with
      | none =>
        { status := 502,
          headers := hset emptyH "Content-Type" "text/plain;charset=UTF-8",
          body := .text "Upstream Error: URI malformed",
          cachePut := none }
      | some fn =>
        let rh := hset rh "Content-Disposition"
          ("attachment; filename*=UTF-8''" ++ encodeURIComponent fn)
        let rh := hset rh "Cache-Control"
          (if ust = 200 ∧ isRange = false ∧ method = "GET" then
            "public, max-age=" ++ Nat.repr CACHE_TTL ++ ", immutable"
          else "no-store")
        { status := ust,
          headers := rh,
          body := .stream,
          cachePut := if ust = 200 ∧ isRange = false ∧ method = "GET" then some target else none }

/-! ## The `/api/meta` branch (worker.js:70-103) -/

/-- A response as the probe observes it. -/
structure ProbeResp where
  ok : Bool
  headers : HMap

/-- The JSON bodies the meta branch can produce. -/
inductive MetaBody
  | errMissing
  | errMeta (details : String)
  | success (name : String) (size : Nat) (kind : String)

structure MetaResult where
  status : Nat
  body : MetaBody

/-- JS falsiness of `headers.get(...)` / `searchParams.get(...)`: `null` or
the empty string. -/
def jsFalsyOptStr : Option String → Bool
  | none => true
  | some s => s = ""

/-- `Number(res.headers.get("content-length")) || 0` (worker.js:93), for the
integral values a content-length carries (a non-integral `Number` would be
truncated by the JSON layer anyway; non-numeric and absent values give 0). -/
def jsNumberSize (o : Option String) : Nat :=
  match o with
  | none => 0
  | some s =>
    let t := trimChars s.data
    if t ≠ [] ∧ t.all Char.isDigit then t.foldl (fun acc c => acc * 10 + (c.toNat - 48)) 0
    else 0

/-- An upstream request description as built by the meta branch. -/
structure ReqSpec where
  method : String
  rangeHeader : Option String
  redirect : String
  timeoutMs : Nat
deriving DecidableEq, Repr

/-- The first probe: `fetchWithTimeout(target, {method: "HEAD", redirect:
"follow"})` with the default 5000 ms timeout (worker.js:77-80, 242). -/
def headProbeReq : ReqSpec := ⟨"HEAD", none, "follow", 5000⟩

/-- The fallback probe: `GET` with `Range: bytes=0-0` under the same default
timeout (worker.js:82-88, 242). -/
def rangeProbeReq : ReqSpec := ⟨"GET", some "bytes=0-0", "follow", 5000⟩

/-- The `/api/meta` branch (worker.js:70-103). `raw` is
`url.searchParams.get("url")`; `headRes` and `getRes` are the results of the
HEAD probe and of the ranged-GET fallback (`.error` models a thrown fetch
failure, including the abort raised by the 5 s timeout). `.error "URI
malformed"` is a `URIError` from `getFilename` caught by the same handler. -/
def metaHandler (raw : Option String) (headRes getRes : Except String ProbeResp) : MetaResult :=
  if jsFalsyOptStr raw then ⟨400, .errMissing⟩
  else
    match normalize (raw.getD "") with
    | .error e => ⟨400, .errMeta e⟩
    | .ok target =>
      match headRes with
      | .error e => ⟨400, .errMeta e⟩
      | .ok res0 =>
        let needRetry := res0.ok = false ∨ jsFalsyOptStr (hget res0.headers "content-length") = true
        match (if needRetry then getRes else .ok res0) with
        | .error e => ⟨400, .errMeta e⟩
        | .ok res =>
          if res.ok = false then ⟨400, .errMeta "File not reachable"⟩
          else
            match getFilename target (some res.headers) with
            | none => ⟨400, .errMeta "URI malformed"⟩
            | some nm =>
              ⟨200, .success nm (jsNumberSize (hget res.headers "content-length")) (detectType target)⟩

/-! ## The router (worker.js:8-120) -/

inductive RouteT
  | preflight
  | ui
  | shortResolve (code : String)
  | shorten
  | meta
  | proxy (rawPath : String)
  | badRequest
deriving DecidableEq, Repr

/-- The dispatch of `fetch(request, env, ctx)` as a function of the request
method and of `new URL(request.url).pathname` (worker.js:11-108): OPTIONS
preflight, the UI render for pathname `/` (any method), `/d/` resolution,
`POST /api/shorten`, `/api/meta`, then the direct-proxy branch guarded by the
`!rawPath` 400. -/
def route (method pathname : String) : RouteT :=
  if method = "OPTIONS" then .preflight
  else if pathname = "/" then .ui
  else if jsStartsWith pathname "/d/" then .shortResolve (jsSlice pathname 3)
  else if pathname = "/api/shorten" ∧ method = "POST" then .shorten
  else if pathname = "/api/meta" then .meta
  else if jsSlice pathname 1 = "" then .badRequest
  else .proxy (jsSlice pathname 1)

/-! ## Helper lemmas -/

/-- The `c:`-prefixed and `u:`-prefixed KV keys never collide. -/
theorem ckey_ne_ukey (x y : String) : "c:" ++ x ≠ "u:" ++ y := by
  obtain ⟨xd⟩ := x
  obtain ⟨yd⟩ := y
  intro h
  have h2 : ("c:" ++ String.mk xd).data.head? = ("u:" ++ String.mk yd).data.head? := by rw [h]
  have h3 : (some 'c' : Option Char) = some 'u' := h2
  exact absurd h3 (by decide)

theorem kvPut_self (kv : KV) (k v : String) : kvPut kv k v k = some v := by
  simp [kvPut]

theorem kvPut_other (kv : KV) (k v k' : String) (h : k' ≠ k) : kvPut kv k v k' = kv k' := by
  simp [kvPut, h]

theorem normalize_empty : normalize "" = Except.error "Invalid URL" := by decide

/-! ## Claim C1 -/

/-- C1: for a URL accepted by normalization, two sequential `create` calls
(no concurrency: the second runs on the store the first produced) return the
same payload both times, and the second call performs no KV write — it finds
the `u:{sha1(normalize(u))}` key that the first call guarantees and returns
the stored code without entering the code-generation or persist path (the
resulting store is unchanged). -/
theorem shorten_idempotent (sha1f : String → String) (rand rand2 : Nat → Nat → Nat)
    (raw target : String) (kv : KV) (hn : normalize raw = Except.ok target) :
    ∃ out kv1,
      createShort sha1f rand raw kv = Except.ok (out, kv1) ∧
      kv1 ("u:" ++ sha1f target) = some out.code ∧
      createShort sha1f rand2 raw kv1 = Except.ok (out, kv1) := by
  have hraw : ¬raw = "" := by
    intro he
    rw [he, normalize_empty] at hn
    cases hn
  cases h1 : kv ("u:" ++ sha1f target) with
  | some code =>
    refine ⟨⟨"d/" ++ code, target, code⟩, kv, ?_, h1, ?_⟩ <;>
      simp [createShort, hraw, hn, h1]
  | none =>
    refine ⟨⟨"d/" ++ genCode rand kv, target, genCode rand kv⟩,
      kvPut (kvPut kv ("c:" ++ genCode rand kv) target) ("u:" ++ sha1f target) (genCode rand kv),
      ?_, kvPut_self .., ?_⟩
    · simp [createShort, hraw, hn, h1]
    · simp [createShort, hraw, hn, kvPut_self]

/-- C1 witness: a concrete run of the double-`create` theorem. -/
theorem shorten_idempotent_witness :
    ∃ out kv1,
      createShort id (fun _ _ => 0) "github.com/a" (fun _ => none) = Except.ok (out, kv1) ∧
      kv1 ("u:" ++ id "https://github.com/a") = some out.code ∧
      createShort id (fun _ _ => 1) "github.com/a" kv1 = Except.ok (out, kv1) :=
  shorten_idempotent id (fun _ _ => 0) (fun _ _ => 1) "github.com/a"
    "https://github.com/a" (fun _ => none) (by decide)

/-! ## Claim C2 -/

/-- Consistency of the two KV indexes: whenever the hash index holds a code
for a target, the code index maps that code back to the target. The empty
store satisfies it, and it is what sequential `create` runs maintain as long
as the bounded collision loop never overwrites a foreign `c:` entry. -/
def kvConsistent (sha1f : String → String) (kv : KV) : Prop :=
  ∀ t c, kv ("u:" ++ sha1f t) = some c → kv ("c:" ++ c) = some t

/-- C2 counterexample: the claim is stated for every store the system itself
can reach without races or eviction, but the bounded collision loop accepts
its 5th candidate even when occupied and overwrites the foreign `c:` entry —
sequentially, with no concurrency. With an RNG that always draws `aaaaaa`:
`create("github.com/a")` issues `aaaaaa`; `create("github.com/b")` collides
five times, accepts `aaaaaa` anyway and overwrites `c:aaaaaa`; a further
`create("github.com/a")` then returns the stored code `aaaaaa`, yet resolving
it yields `https://github.com/b`, not the normalized target
`https://github.com/a`. -/
theorem resolve_after_create_counterexample :
    createShort id (fun _ _ => 0) "github.com/a"
        (kvPut (kvPut (kvPut (kvPut (fun _ => none)
          "c:aaaaaa" "https://github.com/a") "u:https://github.com/a" "aaaaaa")
          "c:aaaaaa" "https://github.com/b") "u:https://github.com/b" "aaaaaa") =
      Except.ok (⟨"d/aaaaaa", "https://github.com/a", "aaaaaa"⟩,
        kvPut (kvPut (kvPut (kvPut (fun _ => none)
          "c:aaaaaa" "https://github.com/a") "u:https://github.com/a" "aaaaaa")
          "c:aaaaaa" "https://github.com/b") "u:https://github.com/b" "aaaaaa") ∧
    createShort id (fun _ _ => 0) "github.com/a" (fun _ => none) =
      Except.ok (⟨"d/aaaaaa", "https://github.com/a", "aaaaaa"⟩,
        kvPut (kvPut (fun _ => none)
          "c:aaaaaa" "https://github.com/a") "u:https://github.com/a" "aaaaaa") ∧
    createShort id (fun _ _ => 0) "github.com/b"
        (kvPut (kvPut (fun _ => none)
          "c:aaaaaa" "https://github.com/a") "u:https://github.com/a" "aaaaaa") =
      Except.ok (⟨"d/aaaaaa", "https://github.com/b", "aaaaaa"⟩,
        kvPut (kvPut (kvPut (kvPut (fun _ => none)
          "c:aaaaaa" "https://github.com/a") "u:https://github.com/a" "aaaaaa")
          "c:aaaaaa" "https://github.com/b") "u:https://github.com/b" "aaaaaa") ∧
    normalize "github.com/a" = Except.ok "https://github.com/a" ∧
    resolveCode
        (kvPut (kvPut (kvPut (kvPut (fun _ => none)
          "c:aaaaaa" "https://github.com/a") "u:https://github.com/a" "aaaaaa")
          "c:aaaaaa" "https://github.com/b") "u:https://github.com/b" "aaaaaa")
        "aaaaaa" = some "https://github.com/b" ∧
    ("https://github.com/b" : String) ≠ "https://github.com/a" := by
  refine ⟨rfl, rfl, rfl, rfl, rfl, by decide⟩

/-- C2 amended: resolving the code returned by `create(u)` yields exactly the
normalized target — `resolve` being the single, side-effect-free KV read of
`c:{code}` — on any store whose two indexes are consistent, i.e. as long as
no accepted 5th-collision overwrite has clobbered a foreign code mapping (the
empty store is consistent, and no concurrent writers or external eviction are
assumed). -/
theorem resolve_after_create (sha1f : String → String) (rand : Nat → Nat → Nat)
    (raw target : String) (kv : KV) (out : ShortenOut) (kv1 : KV)
    (hc : kvConsistent sha1f kv) (hn : normalize raw = Except.ok target)
    (hcr : createShort sha1f rand raw kv = Except.ok (out, kv1)) :
    resolveCode kv1 out.code = some target := by
  have hraw : ¬raw = "" := by
    intro he
    rw [he, normalize_empty] at hn
    cases hn
  simp only [createShort, hraw, if_false, hn] at hcr
  cases h1 : kv ("u:" ++ sha1f target) with
  | some code =>
    rw [h1] at hcr
    simp only [Except.ok.injEq, Prod.mk.injEq] at hcr
    obtain ⟨hout, hkv⟩ := hcr
    subst hkv
    rw [resolveCode, ← hout]
    exact hc target code h1
  | none =>
    rw [h1] at hcr
    simp only [Except.ok.injEq, Prod.mk.injEq] at hcr
    obtain ⟨hout, hkv⟩ := hcr
    subst hkv
    rw [resolveCode, ← hout]
    rw [kvPut_other _ _ _ _ (ckey_ne_ukey _ _)]
    exact kvPut_self ..

/-- C2 witness: a concrete run on the empty (vacuously consistent) store. -/
theorem resolve_after_create_witness :
    resolveCode
      (kvPut (kvPut (fun _ => none) "c:aaaaaa" "https://github.com/a")
        "u:https://github.com/a" "aaaaaa") "aaaaaa" = some "https://github.com/a" :=
  resolve_after_create id (fun _ _ => 0) "github.com/a" "https://github.com/a"
    (fun _ => none) ⟨"d/aaaaaa", "https://github.com/a", "aaaaaa"⟩
    (kvPut (kvPut (fun _ => none) "c:aaaaaa" "https://github.com/a")
      "u:https://github.com/a" "aaaaaa")
    (fun _ _ h => by cases h) (by decide) (by rfl)

/-! ## Claim C7 -/

theorem genCodeFrom_bound (rand : Nat → Nat → Nat) (kv : KV) :
    ∀ fuel i, ∃ j, i ≤ j ∧ j ≤ max i 4 ∧
      genCodeFrom rand kv i fuel = makeShortCode (rand j) 6 := by
  intro fuel
  induction fuel with
  | zero => exact fun i => ⟨i, Nat.le_refl i, Nat.le_max_left i 4, rfl⟩
  | succ m ih =>
    intro i
    by_cases hcond : (kv ("c:" ++ makeShortCode (rand i) 6)).isSome ∧ i + 1 < 5
    · obtain ⟨j, hj1, hj2, hj3⟩ := ih (i + 1)
      refine ⟨j, by omega, ?_, ?_⟩
      · have : max (i + 1) 4 = 4 := by omega
        omega
      · rw [genCodeFrom, if_pos hcond]
        exact hj3
    · exact ⟨i, Nat.le_refl i, Nat.le_max_left i 4, by rw [genCodeFrom, if_neg hcond]⟩

theorem genCodeFrom_all_taken (rand : Nat → Nat → Nat) (kv : KV) :
    ∀ fuel i, fuel = 5 - i → i < 5 →
      (∀ j, i ≤ j → j < 5 → (kv ("c:" ++ makeShortCode (rand j) 6)).isSome) →
      genCodeFrom rand kv i fuel = makeShortCode (rand 4) 6 := by
  intro fuel
  induction fuel with
  | zero => intro i hf hi _; omega
  | succ m ih =>
    intro i hf hi hocc
    by_cases h5 : i + 1 < 5
    · rw [genCodeFrom, if_pos ⟨hocc i (Nat.le_refl i) hi, h5⟩]
      exact ih (i + 1) (by omega) h5 (fun j hj1 hj2 => hocc j (by omega) hj2)
    · have hi4 : i = 4 := by omega
      rw [genCodeFrom, if_neg (by intro hc; exact h5 hc.2), hi4]

/-- C7: the candidate-generation loop of `create` always terminates — it
draws at most 5 candidates, stops at the first whose `c:{code}` key is free,
and after 5 occupied draws accepts the last candidate regardless — so
`create` returns a result for every input `normalize` accepts and only fails
on invalid input. -/
theorem short_code_generation_total (sha1f : String → String) (rand : Nat → Nat → Nat)
    (raw : String) (kv : KV) :
    (∃ j, j < 5 ∧ genCode rand kv = makeShortCode (rand j) 6) ∧
    ((∀ j, j < 5 → (kv ("c:" ++ makeShortCode (rand j) 6)).isSome) →
      genCode rand kv = makeShortCode (rand 4) 6) ∧
    (∀ target, normalize raw = Except.ok target →
      ∃ out kv1, createShort sha1f rand raw kv = Except.ok (out, kv1)) ∧
    (∀ e, createShort sha1f rand raw kv = Except.error e →
      ∀ target, normalize raw ≠ Except.ok target) := by
  refine ⟨?_, ?_, ?_, ?_⟩
  · obtain ⟨j, hj1, hj2, hj3⟩ := genCodeFrom_bound rand kv 5 0
    exact ⟨j, by omega, hj3⟩
  · intro hocc
    exact genCodeFrom_all_taken rand kv 5 0 rfl (by omega)
      (fun j _ hj2 => hocc j hj2)
  · intro target hn
    have hraw : ¬raw = "" := by
      intro he
      rw [he, normalize_empty] at hn
      cases hn
    cases h1 : kv ("u:" ++ sha1f target) with
    | some code =>
      exact ⟨⟨"d/" ++ code, target, code⟩, kv, by simp [createShort, hraw, hn, h1]⟩
    | none =>
      exact ⟨⟨"d/" ++ genCode rand kv, target, genCode rand kv⟩,
        kvPut (kvPut kv ("c:" ++ genCode rand kv) target) ("u:" ++ sha1f target) (genCode rand kv),
        by simp [createShort, hraw, hn, h1]⟩
  · intro e herr target hn
    have hraw : ¬raw = "" := by
      intro he
      rw [he, normalize_empty] at hn
      cases hn
    simp only [createShort, hraw, if_false, hn] at herr
    cases h1 : kv ("u:" ++ sha1f target) with
    | some code => rw [h1] at herr; cases herr
    | none => rw [h1] at herr; cases herr

/-- C7 witness: on a store where every key is occupied, the loop stops after
its 5th draw and accepts that candidate. -/
theorem short_code_generation_total_witness :
    genCode (fun i _ => i) (fun _ => some "taken") = makeShortCode ((fun i _ => i) 4) 6 :=
  (short_code_generation_total id (fun i _ => i) "github.com/a"
    (fun _ => some "taken")).2.1 (fun _ _ => rfl)

/-! ## Claim C4 -/

/-- C4 counterexample: the claim says `normalize` prepends `https://` exactly
when the trimmed input lacks a `scheme://` prefix. The input
`ftp://github.com/x` has a `scheme://` prefix, yet the code's
`/^https?:\/\//i` test fails on it, so `normalize` prepends `https://` —
and, instead of accepting the allow-listed host `github.com` the claim's
reading would produce, parses host `ftp` out of
`https://ftp://github.com/x` and rejects it. -/
theorem normalize_scheme_condition_counterexample :
    schemeSlashSlashTest "ftp://github.com/x" = true ∧
    httpSchemeTest "ftp://github.com/x" = false ∧
    prepped "ftp://github.com/x" = "https://" ++ "ftp://github.com/x" ∧
    (parseHttpURL "ftp://github.com/x" = none ∧
      normalize "ftp://github.com/x" = Except.error "Host not allowed") := by
  refine ⟨by decide, by decide, by decide, by decide, by decide⟩

/-- C4 amended: `normalize` trims the input, prepends `https://` exactly when
the trimmed string lacks a case-insensitive `http://` or `https://` prefix
(not a generic `scheme://` prefix), fails with the `new URL` error exactly
when the resulting string is unparsable, fails with `Host not allowed`
exactly when the parsed hostname is outside the five-host allow-list, and
otherwise returns the parser's absolute href. -/
theorem normalize_behavior (raw : String) :
    (httpSchemeTest (jsTrim raw) = true → prepped raw = jsTrim raw) ∧
    (httpSchemeTest (jsTrim raw) = false → prepped raw = "https://" ++ jsTrim raw) ∧
    (normalize raw = Except.error "Invalid URL" ↔ parseHttpURL (prepped raw) = none) ∧
    (normalize raw = Except.error "Host not allowed" ↔
      ∃ u, parseHttpURL (prepped raw) = some u ∧ allowedHosts.contains u.hostname = false) ∧
    (∀ u, parseHttpURL (prepped raw) = some u → allowedHosts.contains u.hostname = true →
      normalize raw = Except.ok u.href) := by
  refine ⟨fun h => by simp [prepped, h], fun h => by simp [prepped, h], ?_, ?_, ?_⟩
  · simp only [normalize, prepped]
    cases hp : parseHttpURL (if httpSchemeTest (jsTrim raw) then jsTrim raw
        else "https://" ++ jsTrim raw) with
    | none => exact iff_of_true rfl rfl
    | some u =>
      cases hh : allowedHosts.contains u.hostname with
      | true =>
        dsimp only
        rw [if_pos hh]
        exact iff_of_false (by intro h; cases h) (by intro h; cases h)
      | false =>
        have hh' : ¬allowedHosts.contains u.hostname = true := by
          rw [hh]; exact Bool.false_ne_true
        dsimp only
        rw [if_neg hh']
        refine iff_of_false ?_ (by intro h; cases h)
        intro h
        injection h with h
        exact absurd h (by decide)
  · simp only [normalize, prepped]
    cases hp : parseHttpURL (if httpSchemeTest (jsTrim raw) then jsTrim raw
        else "https://" ++ jsTrim raw) with
    | none =>
      refine iff_of_false ?_ ?_
      · intro h
        injection h with h
        exact absurd h (by decide)
      · rintro ⟨u, h, -⟩
        cases h
    | some u =>
      cases hh : allowedHosts.contains u.hostname with
      | true =>
        dsimp only
        rw [if_pos hh]
        refine iff_of_false (by intro h; cases h) ?_
        rintro ⟨u', h1, h2⟩
        injection h1 with h1
        subst h1
        rw [hh] at h2
        cases h2
      | false =>
        have hh' : ¬allowedHosts.contains u.hostname = true := by
          rw [hh]; exact Bool.false_ne_true
        dsimp only
        rw [if_neg hh']
        exact iff_of_true rfl ⟨u, rfl, hh⟩
  · intro u hp hh
    simp only [normalize, prepped] at hp ⊢
    rw [hp]
    show (if allowedHosts.contains u.hostname = true then Except.ok u.href
      else Except.error "Host not allowed") = Except.ok u.href
    rw [if_pos hh]

/-- C4 amended witness: a concrete allow-listed input returning the parser's
href. -/
theorem normalize_behavior_witness :
    normalize "github.com/a" = Except.ok (URLParts.href ⟨"https", "github.com", none, "/a", "", ""⟩) :=
  (normalize_behavior "github.com/a").2.2.2.2 ⟨"https", "github.com", none, "/a", "", ""⟩
    (by decide) (by decide)

/-! ## Claim C9 -/

/-- C9: the upstream request's User-Agent is always the fixed synthetic value
`Mozilla/5.0 (GitMirror)`, and two client requests differing only in their
User-Agent header produce identical upstream request headers — the client's
value, although in the forward keep-list, is unconditionally overwritten. -/
theorem upstream_user_agent_fixed (h1 h2 : HMap)
    (hdiff : ∀ k, k ≠ "user-agent" → h1 k = h2 k) :
    hget (buildUpstreamHeaders h1) "user-agent" = some "Mozilla/5.0 (GitMirror)" ∧
    ∀ k, buildUpstreamHeaders h1 k = buildUpstreamHeaders h2 k := by
  constructor
  · rfl
  · intro k
    by_cases hk : k = "user-agent"
    · subst hk; rfl
    · simp only [buildUpstreamHeaders, hset]
      rw [hdiff k hk]

/-- C9 witness: two concrete header maps differing only in User-Agent. -/
theorem upstream_user_agent_fixed_witness :
    hget (buildUpstreamHeaders (hset emptyH "User-Agent" "curl/8.0")) "user-agent" =
      some "Mozilla/5.0 (GitMirror)" ∧
    buildUpstreamHeaders (hset emptyH "User-Agent" "curl/8.0") "range" =
      buildUpstreamHeaders (hset emptyH "User-Agent" "Wget/1.21") "range" := by
  have hd : ∀ k, k ≠ "user-agent" →
      hset emptyH "User-Agent" "curl/8.0" k = hset emptyH "User-Agent" "Wget/1.21" k := by
    intro k hk
    simp [hset, emptyH, show lowerAscii "User-Agent" = "user-agent" from rfl, hk]
  exact ⟨(upstream_user_agent_fixed _ _ hd).1, (upstream_user_agent_fixed _ _ hd).2 "range"⟩

/-! ## Claim C10 -/

theorem dropWhile_head_not (p : Char → Bool) :
    ∀ (l : List Char) c r, l.dropWhile p = c :: r → p c = false := by
  intro l
  induction l with
  | nil => intro c r h; cases h
  | cons a t ih =>
    intro c r h
    rw [List.dropWhile_cons] at h
    cases hpa : p a with
    | true =>
      rw [if_pos (by rw [hpa])] at h
      exact ih c r h
    | false =>
      rw [if_neg (by rw [hpa]; exact Bool.false_ne_true)] at h
      injection h with h1 h2
      subst h1
      exact hpa

theorem pathSplit_head (l : List Char)
    (hl : ∀ c r, l = c :: r → isAuthEnd c = true) :
    ∃ t, (pathSplit l).1.data = '/' :: t := by
  cases l with
  | nil => exact ⟨[], rfl⟩
  | cons c r =>
    have hc := hl c r rfl
    have hc' : c = '/' ∨ c = '\\' ∨ c = '?' ∨ c = '#' := by
      simpa [isAuthEnd, or_assoc] using hc
    rcases hc' with h | h | h | h <;> subst h
    · refine ⟨(r.takeWhile (fun c => !(c = '?' || c = '#'))).map bslashToSlash, ?_⟩
      simp [pathSplit, List.takeWhile_cons, bslashToSlash]
    · refine ⟨(r.takeWhile (fun c => !(c = '?' || c = '#'))).map bslashToSlash, ?_⟩
      simp [pathSplit, List.takeWhile_cons, bslashToSlash]
    · exact ⟨[], by simp [pathSplit, List.takeWhile_cons]⟩
    · exact ⟨[], by simp [pathSplit, List.takeWhile_cons]⟩

theorem parse_pathname_head (s : String) (u : URLParts)
    (hp : parseHttpURL s = some u) : ∃ t, u.pathname.data = '/' :: t := by
  simp only [parseHttpURL] at hp
  cases hsch : schemeSplit s.data with
  | none => rw [hsch] at hp; cases hp
  | some pr =>
    obtain ⟨scheme, rest0⟩ := pr
    rw [hsch] at hp
    simp only at hp
    split at hp
    · cases hp
    · split at hp
      · cases hp
      · split at hp
        · cases hp
        · cases hp
          refine pathSplit_head _ ?_
          intro c r hc
          have := dropWhile_head_not (fun c => !isAuthEnd c) _ c r hc
          simpa using this

/-- C10: every non-OPTIONS request with path exactly `/` gets the HTML UI
regardless of method (a POST to `/` is the UI page, not shorten handling or
an error), and the 400 Bad Request branch for an empty proxy path is
unreachable for any pathname produced by the URL parser, which never yields
an empty pathname. -/
theorem router_root_ui (m s : String) (u : URLParts) :
    (m ≠ "OPTIONS" → route m "/" = RouteT.ui) ∧
    (parseHttpURL s = some u → route m u.pathname ≠ RouteT.badRequest) := by
  constructor
  · intro hm
    simp [route, hm]
  · intro hp hbad
    obtain ⟨t, hpd⟩ := parse_pathname_head s u hp
    by_cases hm : m = "OPTIONS"
    · simp [route, hm] at hbad
    · by_cases hr : u.pathname = "/"
      · simp [route, hm, hr] at hbad
      · have hsl : jsSlice u.pathname 1 ≠ "" := by
          intro hsl
          have ht : t = [] := by
            have h2 := congrArg String.data hsl
            simpa [jsSlice, hpd] using h2
          exact hr (String.ext (by simp [hpd, ht]))
        by_cases hd : jsStartsWith u.pathname "/d/" = true
        · simp [route, hm, hr, hd] at hbad
        · by_cases hsh : u.pathname = "/api/shorten" ∧ m = "POST"
          · simp [route, hm, hr, hd, hsh] at hbad
            exact absurd hbad (by decide)
          · by_cases hme : u.pathname = "/api/meta"
            · simp [route, hm, hr, hd, hsh, hme] at hbad
              exact absurd hbad (by decide)
            · simp [route, hm, hr, hd, hsh, hme, hsl] at hbad

/-- C10 witness: a POST to `/` renders the UI. -/
theorem router_root_ui_witness : route "POST" "/" = RouteT.ui :=
  (router_root_ui "POST" "https://github.com/a" ⟨"https", "github.com", none, "/a", "", ""⟩).1
    (by decide)

/-! ## Header-map lemmas and `proxyFetch` shape lemmas -/

theorem hget_hset_self (h : HMap) (k v k' : String) (hk : lowerAscii k' = lowerAscii k) :
    hget (hset h k v) k' = some v := by
  simp [hget, hset, hk]

theorem hget_hset_skip (h : HMap) (k v k' : String) (hk : lowerAscii k' ≠ lowerAscii k) :
    hget (hset h k v) k' = hget h k' := by
  simp [hget, hset, hk]

theorem hget_hdel_skip (h : HMap) (k k' : String) (hk : lowerAscii k' ≠ lowerAscii k) :
    hget (hdel h k) k' = hget h k' := by
  simp [hget, hdel, hk]

/-- Shape of `proxyFetch` on a cache hit: a non-range GET whose cache lookup
succeeds is answered from the cache with refreshed marker and CORS headers
and no scheduled write; the upstream oracle is never consulted. -/
theorem proxyFetch_hit_eq (target method : String) (reqHeaders : HMap)
    (cache : String → Option (Nat × HMap)) (upstream : HMap → Except String (Nat × HMap))
    (cst : Nat) (chs : HMap)
    (hr : (hget reqHeaders "range").isSome = false) (hm : method = "GET")
    (hc : cache target = some (cst, chs)) :
    proxyFetch target method reqHeaders cache upstream =
      { status := cst,
        headers := corsApply (hset (hset chs "X-Cache-Status" "HIT") "X-Powered-By" "GitMirror-Pro"),
        body := PBody.stream,
        cachePut := none } := by
  subst hm
  simp only [proxyFetch, hr, hc]
  rfl

/-- Shape of `proxyFetch` when the cache is bypassed or misses and the
upstream fetch throws: the bare 502 with the error text. -/
theorem proxyFetch_err_eq (target method : String) (reqHeaders : HMap)
    (cache : String → Option (Nat × HMap)) (upstream : HMap → Except String (Nat × HMap))
    (msg : String)
    (hnone : (if (hget reqHeaders "range").isSome = false ∧ method = "GET"
      then cache target else none) = none)
    (hup : upstream (buildUpstreamHeaders reqHeaders) = Except.error msg) :
    proxyFetch target method reqHeaders cache upstream =
      { status := 502,
        headers := hset emptyH "Content-Type" "text/plain;charset=UTF-8",
        body := PBody.text ("Upstream Error: " ++ msg),
        cachePut := none } := by
  simp only [proxyFetch, hnone, hup]

/-- Shape of `proxyFetch` when the cache is bypassed or misses and the
upstream fetch succeeds (and the filename derivation does not throw). -/
theorem proxyFetch_ok_eq (target method : String) (reqHeaders : HMap)
    (cache : String → Option (Nat × HMap)) (upstream : HMap → Except String (Nat × HMap))
    (ust : Nat) (uhs : HMap) (fn : String)
    (hnone : (if (hget reqHeaders "range").isSome = false ∧ method = "GET"
      then cache target else none) = none)
    (hup : upstream (buildUpstreamHeaders reqHeaders) = Except.ok (ust, uhs))
    (hfn : getFilename target (some uhs) = some fn) :
    proxyFetch target method reqHeaders cache upstream =
      { status := ust,
        headers := hset (hset (hset (hset
          (corsApply (hdel (hdel uhs "link") "strict-transport-security"))
          "X-Cache-Status" (if (hget reqHeaders "range").isSome then "BYPASS" else "MISS"))
          "X-Powered-By" "GitMirror-Pro")
          "Content-Disposition" ("attachment; filename*=UTF-8''" ++ encodeURIComponent fn))
          "Cache-Control" (if ust = 200 ∧ (hget reqHeaders "range").isSome = false ∧ method = "GET"
            then "public, max-age=" ++ Nat.repr CACHE_TTL ++ ", immutable" else "no-store"),
        body := PBody.stream,
        cachePut := if ust = 200 ∧ (hget reqHeaders "range").isSome = false ∧ method = "GET"
          then some target else none } := by
  simp only [proxyFetch, hnone, hup, hfn]

/-- Shape of `proxyFetch` when the upstream fetch succeeds but the filename
derivation throws a `URIError` (caught by the same 502 handler). -/
theorem proxyFetch_badfn_eq (target method : String) (reqHeaders : HMap)
    (cache : String → Option (Nat × HMap)) (upstream : HMap → Except String (Nat × HMap))
    (ust : Nat) (uhs : HMap)
    (hnone : (if (hget reqHeaders "range").isSome = false ∧ method = "GET"
      then cache target else none) = none)
    (hup : upstream (buildUpstreamHeaders reqHeaders) = Except.ok (ust, uhs))
    (hfn : getFilename target (some uhs) = none) :
    proxyFetch target method reqHeaders cache upstream =
      { status := 502,
        headers := hset emptyH "Content-Type" "text/plain;charset=UTF-8",
        body := PBody.text "Upstream Error: URI malformed",
        cachePut := none } := by
  simp only [proxyFetch, hnone, hup, hfn]

/-! ## Claim C3 -/

/-- C3 counterexample: the claim says every response on the proxy/cache path,
including the 502 on upstream fetch failure, carries the CORS headers, a
cache-status marker, the product header and a Content-Disposition. The
catch-branch 502 is built as `new Response("Upstream Error: ...", {status:
502})` with no headers at all. -/
theorem proxy_headers_502_counterexample :
    (proxyFetch "https://github.com/a/b.zip" "GET" emptyH (fun _ => none)
      (fun _ => Except.error "connection reset")).status = 502 ∧
    hget (proxyFetch "https://github.com/a/b.zip" "GET" emptyH (fun _ => none)
      (fun _ => Except.error "connection reset")).headers "Access-Control-Allow-Origin" = none ∧
    hget (proxyFetch "https://github.com/a/b.zip" "GET" emptyH (fun _ => none)
      (fun _ => Except.error "connection reset")).headers "X-Cache-Status" = none ∧
    hget (proxyFetch "https://github.com/a/b.zip" "GET" emptyH (fun _ => none)
      (fun _ => Except.error "connection reset")).headers "X-Powered-By" = none ∧
    hget (proxyFetch "https://github.com/a/b.zip" "GET" emptyH (fun _ => none)
      (fun _ => Except.error "connection reset")).headers "Content-Disposition" = none := by
  decide

/-- C3 amended: every response produced on the cache-hit path or the
upstream-success path carries the three CORS headers, a cache-status marker
(`HIT` on hits, `BYPASS`/`MISS` otherwise), the `X-Powered-By` product header
and — on the upstream path — the percent-encoded `Content-Disposition` (a hit
preserves whatever `Content-Disposition` the stored copy carried); the
catch-branch 502 response carries none of these headers, only the error
text. -/
theorem proxy_headers_present (target method : String) (reqHeaders : HMap)
    (cache : String → Option (Nat × HMap)) (upstream : HMap → Except String (Nat × HMap)) :
    (∀ cst chs, (hget reqHeaders "range").isSome = false → method = "GET" →
      cache target = some (cst, chs) →
      hget (proxyFetch target method reqHeaders cache upstream).headers
          "Access-Control-Allow-Origin" = some "*" ∧
      hget (proxyFetch target method reqHeaders cache upstream).headers
          "Access-Control-Allow-Methods" = some "GET, HEAD, POST, OPTIONS" ∧
      hget (proxyFetch target method reqHeaders cache upstream).headers
          "Access-Control-Allow-Headers" = some "Content-Type, Range" ∧
      hget (proxyFetch target method reqHeaders cache upstream).headers
          "X-Cache-Status" = some "HIT" ∧
      hget (proxyFetch target method reqHeaders cache upstream).headers
          "X-Powered-By" = some "GitMirror-Pro" ∧
      (∀ v, hget chs "Content-Disposition" = some v →
        hget (proxyFetch target method reqHeaders cache upstream).headers
          "Content-Disposition" = some v)) ∧
    (∀ ust uhs fn,
      (if (hget reqHeaders "range").isSome = false ∧ method = "GET"
        then cache target else none) = none →
      upstream (buildUpstreamHeaders reqHeaders) = Except.ok (ust, uhs) →
      getFilename target (some uhs) = some fn →
      hget (proxyFetch target method reqHeaders cache upstream).headers
          "Access-Control-Allow-Origin" = some "*" ∧
      hget (proxyFetch target method reqHeaders cache upstream).headers
          "Access-Control-Allow-Methods" = some "GET, HEAD, POST, OPTIONS" ∧
      hget (proxyFetch target method reqHeaders cache upstream).headers
          "Access-Control-Allow-Headers" = some "Content-Type, Range" ∧
      hget (proxyFetch target method reqHeaders cache upstream).headers
          "X-Cache-Status" =
        some (if (hget reqHeaders "range").isSome then "BYPASS" else "MISS") ∧
      hget (proxyFetch target method reqHeaders cache upstream).headers
          "X-Powered-By" = some "GitMirror-Pro" ∧
      hget (proxyFetch target method reqHeaders cache upstream).headers
          "Content-Disposition" =
        some ("attachment; filename*=UTF-8''" ++ encodeURIComponent fn)) ∧
    (∀ msg,
      (if (hget reqHeaders "range").isSome = false ∧ method = "GET"
        then cache target else none) = none →
      upstream (buildUpstreamHeaders reqHeaders) = Except.error msg →
      (proxyFetch target method reqHeaders cache upstream).status = 502 ∧
      (proxyFetch target method reqHeaders cache upstream).body =
        PBody.text ("Upstream Error: " ++ msg) ∧
      hget (proxyFetch target method reqHeaders cache upstream).headers
          "Access-Control-Allow-Origin" = none ∧
      hget (proxyFetch target method reqHeaders cache upstream).headers
          "X-Cache-Status" = none ∧
      hget (proxyFetch target method reqHeaders cache upstream).headers
          "Content-Disposition" = none) := by
  refine ⟨?_, ?_, ?_⟩
  · intro cst chs hr hm hc
    rw [proxyFetch_hit_eq target method reqHeaders cache upstream cst chs hr hm hc]
    exact ⟨rfl, rfl, rfl, rfl, rfl, fun v hv => hv⟩
  · intro ust uhs fn hnone hup hfn
    rw [proxyFetch_ok_eq target method reqHeaders cache upstream ust uhs fn hnone hup hfn]
    exact ⟨rfl, rfl, rfl, rfl, rfl, rfl⟩
  · intro msg hnone hup
    rw [proxyFetch_err_eq target method reqHeaders cache upstream msg hnone hup]
    exact ⟨rfl, rfl, rfl, rfl, rfl⟩

/-- C3 amended witness: a concrete upstream-success run showing all headers. -/
theorem proxy_headers_present_witness :
    hget (proxyFetch "https://github.com/a/b.zip" "GET" emptyH (fun _ => none)
        (fun _ => Except.ok (200, emptyH))).headers "Access-Control-Allow-Origin" = some "*" ∧
    hget (proxyFetch "https://github.com/a/b.zip" "GET" emptyH (fun _ => none)
        (fun _ => Except.ok (200, emptyH))).headers "Content-Disposition" =
      some ("attachment; filename*=UTF-8''" ++ encodeURIComponent "b.zip") := by
  have h := (proxy_headers_present "https://github.com/a/b.zip" "GET" emptyH (fun _ => none)
    (fun _ => Except.ok (200, emptyH))).2.1 200 emptyH "b.zip" rfl rfl (by decide)
  exact ⟨h.1, h.2.2.2.2.2⟩

/-! ## Claim C5 -/

/-- C5: on the upstream path, the client-visible `Cache-Control` is the long
immutable directive iff the upstream status is exactly 200 and the request a
non-range GET, `no-store` in every other case; and a cache write is scheduled
(fire-and-forget, through `ctx.waitUntil`, so it never delays the response —
the response record never depends on the write) in exactly that same case and
never on the hit or failure paths. -/
theorem cache_control_policy (target method : String) (reqHeaders : HMap)
    (cache : String → Option (Nat × HMap)) (upstream : HMap → Except String (Nat × HMap)) :
    (∀ ust uhs fn,
      (if (hget reqHeaders "range").isSome = false ∧ method = "GET"
        then cache target else none) = none →
      upstream (buildUpstreamHeaders reqHeaders) = Except.ok (ust, uhs) →
      getFilename target (some uhs) = some fn →
      (hget (proxyFetch target method reqHeaders cache upstream).headers "Cache-Control" =
          some "public, max-age=31536000, immutable" ↔
        (ust = 200 ∧ (hget reqHeaders "range").isSome = false ∧ method = "GET")) ∧
      (¬(ust = 200 ∧ (hget reqHeaders "range").isSome = false ∧ method = "GET") →
        hget (proxyFetch target method reqHeaders cache upstream).headers "Cache-Control" =
          some "no-store") ∧
      ((proxyFetch target method reqHeaders cache upstream).cachePut = some target ↔
        (ust = 200 ∧ (hget reqHeaders "range").isSome = false ∧ method = "GET")) ∧
      ((proxyFetch target method reqHeaders cache upstream).cachePut = none ↔
        ¬(ust = 200 ∧ (hget reqHeaders "range").isSome = false ∧ method = "GET"))) ∧
    (∀ cst chs, (hget reqHeaders "range").isSome = false → method = "GET" →
      cache target = some (cst, chs) →
      (proxyFetch target method reqHeaders cache upstream).cachePut = none) ∧
    (∀ msg,
      (if (hget reqHeaders "range").isSome = false ∧ method = "GET"
        then cache target else none) = none →
      upstream (buildUpstreamHeaders reqHeaders) = Except.error msg →
      (proxyFetch target method reqHeaders cache upstream).cachePut = none) := by
  refine ⟨?_, ?_, ?_⟩
  · intro ust uhs fn hnone hup hfn
    rw [proxyFetch_ok_eq target method reqHeaders cache upstream ust uhs fn hnone hup hfn]
    by_cases hcond : ust = 200 ∧ (hget reqHeaders "range").isSome = false ∧ method = "GET"
    · refine ⟨?_, fun hn => absurd hcond hn, ?_, ?_⟩
      · rw [hget_hset_self _ _ _ _ (by decide), if_pos hcond]
        exact iff_of_true rfl hcond
      · show (if ust = 200 ∧ (hget reqHeaders "range").isSome = false ∧ method = "GET"
          then some target else none) = some target ↔ _
        rw [if_pos hcond]
        exact iff_of_true rfl hcond
      · show (if ust = 200 ∧ (hget reqHeaders "range").isSome = false ∧ method = "GET"
          then some target else none) = none ↔ _
        rw [if_pos hcond]
        exact iff_of_false (by intro h; cases h) (fun hn => hn hcond)
    · refine ⟨?_, fun _ => ?_, ?_, ?_⟩
      · rw [hget_hset_self _ _ _ _ (by decide), if_neg hcond]
        refine iff_of_false ?_ hcond
        intro h
        injection h with h
        exact absurd h (by decide)
      · rw [hget_hset_self _ _ _ _ (by decide), if_neg hcond]
      · show (if ust = 200 ∧ (hget reqHeaders "range").isSome = false ∧ method = "GET"
          then some target else none) = some target ↔ _
        rw [if_neg hcond]
        exact iff_of_false (by intro h; cases h) hcond
      · show (if ust = 200 ∧ (hget reqHeaders "range").isSome = false ∧ method = "GET"
          then some target else none) = none ↔ _
        rw [if_neg hcond]
        exact iff_of_true rfl hcond
  · intro cst chs hr hm hc
    rw [proxyFetch_hit_eq target method reqHeaders cache upstream cst chs hr hm hc]
  · intro msg hnone hup
    rw [proxyFetch_err_eq target method reqHeaders cache upstream msg hnone hup]

/-- C5 witness: a concrete 200 non-range GET gets the immutable directive and
a scheduled cache write; a concrete 404 gets `no-store` and no write. -/
theorem cache_control_policy_witness :
    hget (proxyFetch "https://github.com/a/b.zip" "GET" emptyH (fun _ => none)
        (fun _ => Except.ok (200, emptyH))).headers "Cache-Control" =
      some "public, max-age=31536000, immutable" ∧
    (proxyFetch "https://github.com/a/b.zip" "GET" emptyH (fun _ => none)
        (fun _ => Except.ok (200, emptyH))).cachePut = some "https://github.com/a/b.zip" ∧
    hget (proxyFetch "https://github.com/a/b.zip" "GET" emptyH (fun _ => none)
        (fun _ => Except.ok (404, emptyH))).headers "Cache-Control" = some "no-store" ∧
    (proxyFetch "https://github.com/a/b.zip" "GET" emptyH (fun _ => none)
        (fun _ => Except.ok (404, emptyH))).cachePut = none := by
  have h200 := (cache_control_policy "https://github.com/a/b.zip" "GET" emptyH (fun _ => none)
    (fun _ => Except.ok (200, emptyH))).1 200 emptyH "b.zip" rfl rfl (by decide)
  have h404 := (cache_control_policy "https://github.com/a/b.zip" "GET" emptyH (fun _ => none)
    (fun _ => Except.ok (404, emptyH))).1 404 emptyH "b.zip" rfl rfl (by decide)
  have hn : ¬((404 : Nat) = 200 ∧ (hget emptyH "range").isSome = false ∧ "GET" = "GET") := by
    intro h
    exact absurd h.1 (by decide)
  exact ⟨h200.1.mpr ⟨rfl, rfl, rfl⟩, h200.2.2.1.mpr ⟨rfl, rfl, rfl⟩,
    h404.2.1 hn, h404.2.2.2.mpr hn⟩

/-! ## Claim C6 -/

/-- C6 counterexample: the claim says every Range-carrying request yields a
response with cache-status `BYPASS` and `Cache-Control: no-store`; when the
upstream fetch fails, the 502 carries neither header. -/
theorem range_request_counterexample :
    (hget (hset emptyH "Range" "bytes=0-10") "range").isSome = true ∧
    (proxyFetch "https://github.com/a/b.zip" "GET" (hset emptyH "Range" "bytes=0-10")
      (fun _ => none) (fun _ => Except.error "timeout")).status = 502 ∧
    hget (proxyFetch "https://github.com/a/b.zip" "GET" (hset emptyH "Range" "bytes=0-10")
      (fun _ => none) (fun _ => Except.error "timeout")).headers "X-Cache-Status" = none ∧
    hget (proxyFetch "https://github.com/a/b.zip" "GET" (hset emptyH "Range" "bytes=0-10")
      (fun _ => none) (fun _ => Except.error "timeout")).headers "Cache-Control" = none := by
  decide

/-- C6 amended: a Range-carrying request never reads the cache (the outcome
is identical for any two cache states) and never schedules a cache write, on
every path including failure; and whenever the upstream fetch succeeds, its
response carries cache-status `BYPASS` and `Cache-Control: no-store`. -/
theorem range_request_no_cache (target method : String) (reqHeaders : HMap)
    (cache1 cache2 : String → Option (Nat × HMap))
    (upstream : HMap → Except String (Nat × HMap))
    (hr : (hget reqHeaders "range").isSome = true) :
    proxyFetch target method reqHeaders cache1 upstream =
      proxyFetch target method reqHeaders cache2 upstream ∧
    (proxyFetch target method reqHeaders cache1 upstream).cachePut = none ∧
    (∀ ust uhs fn, upstream (buildUpstreamHeaders reqHeaders) = Except.ok (ust, uhs) →
      getFilename target (some uhs) = some fn →
      hget (proxyFetch target method reqHeaders cache1 upstream).headers
          "X-Cache-Status" = some "BYPASS" ∧
      hget (proxyFetch target method reqHeaders cache1 upstream).headers
          "Cache-Control" = some "no-store") := by
  have hnone : ∀ c : String → Option (Nat × HMap),
      (if (hget reqHeaders "range").isSome = false ∧ method = "GET"
        then c target else none) = none := by
    intro c
    rw [if_neg]
    intro h
    rw [hr] at h
    exact absurd h.1 (by decide)
  have hncond : ∀ ust : Nat,
      ¬(ust = 200 ∧ (hget reqHeaders "range").isSome = false ∧ method = "GET") := by
    intro ust h
    rw [hr] at h
    exact absurd h.2.1 (by decide)
  refine ⟨?_, ?_, ?_⟩
  · simp only [proxyFetch, hnone cache1, hnone cache2]
  · cases hu : upstream (buildUpstreamHeaders reqHeaders) with
    | error msg =>
      rw [proxyFetch_err_eq target method reqHeaders cache1 upstream msg (hnone cache1) hu]
    | ok p =>
      obtain ⟨ust, uhs⟩ := p
      cases hf : getFilename target (some uhs) with
      | none =>
        rw [proxyFetch_badfn_eq target method reqHeaders cache1 upstream ust uhs
          (hnone cache1) hu hf]
      | some fn =>
        rw [proxyFetch_ok_eq target method reqHeaders cache1 upstream ust uhs fn
          (hnone cache1) hu hf]
        show (if ust = 200 ∧ (hget reqHeaders "range").isSome = false ∧ method = "GET"
          then some target else none) = none
        rw [if_neg (hncond ust)]
  · intro ust uhs fn hu hf
    rw [proxyFetch_ok_eq target method reqHeaders cache1 upstream ust uhs fn
      (hnone cache1) hu hf]
    constructor
    · rw [hget_hset_skip _ _ _ _ (by decide), hget_hset_skip _ _ _ _ (by decide),
        hget_hset_skip _ _ _ _ (by decide), hget_hset_self _ _ _ _ (by decide), hr]
      rfl
    · rw [hget_hset_self _ _ _ _ (by decide), if_neg (hncond ust)]

/-- C6 amended witness: a concrete Range request against two different cache
states, with a successful upstream fetch. -/
theorem range_request_no_cache_witness :
    proxyFetch "https://github.com/a/b.zip" "GET" (hset emptyH "Range" "bytes=0-10")
        (fun _ => none) (fun _ => Except.ok (206, emptyH)) =
      proxyFetch "https://github.com/a/b.zip" "GET" (hset emptyH "Range" "bytes=0-10")
        (fun _ => some (200, emptyH)) (fun _ => Except.ok (206, emptyH)) ∧
    hget (proxyFetch "https://github.com/a/b.zip" "GET" (hset emptyH "Range" "bytes=0-10")
        (fun _ => none) (fun _ => Except.ok (206, emptyH))).headers
      "X-Cache-Status" = some "BYPASS" := by
  have h := range_request_no_cache "https://github.com/a/b.zip" "GET"
    (hset emptyH "Range" "bytes=0-10") (fun _ => none) (fun _ => some (200, emptyH))
    (fun _ => Except.ok (206, emptyH)) rfl
  exact ⟨h.1, (h.2.2 206 emptyH "b.zip" rfl (by decide)).1⟩

/-! ## Claim C8 -/

/-- C8: the metadata probe issues a HEAD request under the default 5-second
timeout; exactly when that response is not OK or lacks a (non-empty)
content-length, it falls back to a single ranged GET (`Range: bytes=0-0`)
under the same timeout — when HEAD was OK with a content-length, the outcome
is independent of the GET oracle. If the resulting response is not OK the
endpoint returns 400 with `{error: "Failed to fetch metadata", details}`, and
for a host outside the allow-list the details value is `"Host not allowed"`. -/
theorem meta_probe_behavior (r : String) (res0 : ProbeResp)
    (headRes getRes getRes2 : Except String ProbeResp) :
    (headProbeReq = ⟨"HEAD", none, "follow", 5000⟩ ∧
      rangeProbeReq = ⟨"GET", some "bytes=0-0", "follow", 5000⟩) ∧
    (res0.ok = true → jsFalsyOptStr (hget res0.headers "content-length") = false →
      metaHandler (some r) (Except.ok res0) getRes =
        metaHandler (some r) (Except.ok res0) getRes2) ∧
    ((res0.ok = false ∨ jsFalsyOptStr (hget res0.headers "content-length") = true) →
      jsFalsyOptStr (some r) = false →
      (∃ t, normalize r = Except.ok t) →
      ∀ res, getRes = Except.ok res → res.ok = false →
      metaHandler (some r) (Except.ok res0) getRes =
        ⟨400, MetaBody.errMeta "File not reachable"⟩) ∧
    (normalize r = Except.error "Host not allowed" → jsFalsyOptStr (some r) = false →
      metaHandler (some r) headRes getRes = ⟨400, MetaBody.errMeta "Host not allowed"⟩) ∧
    (∀ u, parseHttpURL (prepped r) = some u → allowedHosts.contains u.hostname = false →
      normalize r = Except.error "Host not allowed") := by
  refine ⟨⟨rfl, rfl⟩, ?_, ?_, ?_, ?_⟩
  · intro hok hcl
    by_cases hfrt : jsFalsyOptStr (some r) = true
    · simp [metaHandler, hfrt]
    · have hnr : ¬(res0.ok = false ∨
          jsFalsyOptStr (hget res0.headers "content-length") = true) := by
        rintro (h | h)
        · rw [hok] at h; cases h
        · rw [hcl] at h; cases h
      simp [metaHandler, hfrt, hnr]
  · intro hretry hfr ⟨target, hn⟩ res hres hresok
    simp [metaHandler, hfr, hn, hretry, hres, hresok]
  · intro hn hfr
    simp [metaHandler, hfr, hn]
  · intro u hp hh
    have hh' : ¬allowedHosts.contains u.hostname = true := by
      rw [hh]; exact Bool.false_ne_true
    simp only [prepped] at hp
    simp only [normalize, hp]
    show (if allowedHosts.contains u.hostname = true then Except.ok u.href
      else Except.error "Host not allowed") = Except.error "Host not allowed"
    rw [if_neg hh']

/-- C8 witness: a probe for a disallowed host yields the 400 body with
details `"Host not allowed"`; a failed OK-less probe chain yields the 400
with details `"File not reachable"`. -/
theorem meta_probe_behavior_witness :
    metaHandler (some "https://evil.com/x") (Except.error "aborted") (Except.error "aborted") =
      ⟨400, MetaBody.errMeta "Host not allowed"⟩ ∧
    metaHandler (some "github.com/a") (Except.ok ⟨false, emptyH⟩)
        (Except.ok ⟨false, emptyH⟩) =
      ⟨400, MetaBody.errMeta "File not reachable"⟩ := by
  constructor
  · exact (meta_probe_behavior "https://evil.com/x" ⟨false, emptyH⟩ (Except.error "aborted")
      (Except.error "aborted") (Except.error "aborted")).2.2.2.1 (by decide) (by decide)
  · exact (meta_probe_behavior "github.com/a" ⟨false, emptyH⟩ (Except.ok ⟨false, emptyH⟩)
      (Except.ok ⟨false, emptyH⟩) (Except.ok ⟨false, emptyH⟩)).2.2.1 (Or.inl rfl) (by decide)
      ⟨"https://github.com/a", by decide⟩ ⟨false, emptyH⟩ rfl rfl

end GitMirror
